import Mathlib

/-!
Verification of the grid-raycasting core of `src/index.ts`.

The source works on JavaScript numbers; we embed coordinates as exact
rationals (`ℚ`).  `Math.ceil` / `Math.floor` become `Int.ceil` / `Int.floor`
(cast back to `ℚ`), `Math.sign` is embedded literally, and the one distance
comparison in `rayStep` (which the source performs on `Math.sqrt` of the
squared distances) is embedded as a comparison of the squared distances:
`Real.sqrt` is strictly monotone on nonnegative reals, so
`sqrt a < sqrt b ↔ a < b` there, and both squared distances are sums of
squares.  `Vector2.norm`, whose body genuinely needs `Real.sqrt`, is
embedded separately over `ℝ`.
-/

namespace Raycasting

/-- `const EPS: number = 1e-3;` (src/index.ts line 1). -/
def EPS : ℚ := 1 / 1000

/-- `class Vector2 { x: number; y: number; ... }` with rational coordinates. -/
structure Vector2 where
  x : ℚ
  y : ℚ
deriving DecidableEq, Repr

namespace Vector2

/-- `static zero(): Vector2 { return new Vector2(0, 0); }` -/
def zero : Vector2 := ⟨0, 0⟩

/-- `add(that) { return new Vector2(this.x + that.x, this.y + that.y); }` -/
def add (a b : Vector2) : Vector2 := ⟨a.x + b.x, a.y + b.y⟩

/-- `sub(that) { return new Vector2(this.x - that.x, this.y - that.y); }` -/
def sub (a b : Vector2) : Vector2 := ⟨a.x - b.x, a.y - b.y⟩

/-- `mul(that) { return new Vector2(this.x * that.x, this.y * that.y); }` -/
def mul (a b : Vector2) : Vector2 := ⟨a.x * b.x, a.y * b.y⟩

/-- `scale(value) { return new Vector2(this.x * value, this.y * value); }` -/
def scale (a : Vector2) (value : ℚ) : Vector2 := ⟨a.x * value, a.y * value⟩

/-- The squared length `this.x * this.x + this.y * this.y`; the source's
`lenght()` is the real square root of this (the source misspells "length"). -/
def lenghtSq (v : Vector2) : ℚ := v.x * v.x + v.y * v.y

/-- Squared distance; `distanceTo(that) { return that.sub(this).lenght(); }`
is its real square root.  Comparisons of distances in the source are
embedded as comparisons of these squared distances (sqrt is strictly
monotone on nonnegatives). -/
def distanceSqTo (a b : Vector2) : ℚ := lenghtSq (b.sub a)

end Vector2

/-- `Math.sign`: 1 for positive, -1 for negative, 0 for zero. -/
def sign (q : ℚ) : ℚ := if q > 0 then 1 else if q < 0 then -1 else 0

/-- ```
function snap(x: number, dx: number): number {
    if (dx > 0) return Math.ceil(x + Math.sign(dx) * EPS);
    if (dx < 0) return Math.floor(x + Math.sign(dx) * EPS);
    return x;
}
``` -/
def snap (x dx : ℚ) : ℚ :=
  if dx > 0 then (⌈x + sign dx * EPS⌉ : ℤ)
  else if dx < 0 then (⌊x + sign dx * EPS⌋ : ℤ)
  else x

/-- ```
function hittingCell(p1: Vector2, p2: Vector2): Vector2 {
    const d = p2.sub(p1);
    return new Vector2(
        Math.floor(p2.x + Math.sign(d.x) * EPS),
        Math.floor(p2.y + Math.sign(d.y) * EPS)
    );
}
``` -/
def hittingCell (p1 p2 : Vector2) : Vector2 :=
  let d := p2.sub p1
  ⟨((⌊p2.x + sign d.x * EPS⌋ : ℤ) : ℚ), ((⌊p2.y + sign d.y * EPS⌋ : ℤ) : ℚ)⟩

/-- ```
function rayStep(p1: Vector2, p2: Vector2): Vector2 {
    let p3 = p2;
    const d = p2.sub(p1);
    if (d.x !== 0) {
        const k = d.y / d.x;
        const c = p1.y - k * p1.x;
        {
            const x3 = snap(p2.x, d.x);
            const y3 = x3 * k + c;
            p3 = new Vector2(x3, y3);
        }
        if (k !== 0) {
            const y3 = snap(p2.y, d.y);
            const x3 = (y3 - c) / k;
            const p3t = new Vector2(x3, y3);
            if (p2.distanceTo(p3t) < p2.distanceTo(p3)) {
                p3 = p3t;
            }
        }
    } else {
        const y3 = snap(p2.y, d.y);
        const x3 = p2.x;
        p3 = new Vector2(x3, y3);
    }
    return p3;
}
```
The distance comparison is embedded on squared distances (see module
docstring). -/
def rayStep (p1 p2 : Vector2) : Vector2 :=
  let d := p2.sub p1
  if d.x ≠ 0 then
    let k := d.y / d.x
    let c := p1.y - k * p1.x
    let x3 := snap p2.x d.x
    let y3 := x3 * k + c
    let p3 : Vector2 := ⟨x3, y3⟩
    if k ≠ 0 then
      let y3h := snap p2.y d.y
      let x3h := (y3h - c) / k
      let p3t : Vector2 := ⟨x3h, y3h⟩
      if p2.distanceSqTo p3t < p2.distanceSqTo p3 then p3t else p3
    else p3
  else
    ⟨p2.x, snap p2.y d.y⟩

/-- `Number.MIN_VALUE`, the smallest positive double, exactly `2 ^ (-1074)`. -/
def NumberMinValue : ℚ := 1 / 2 ^ 1074

/-- ```
function sceneSize(scene: Scene): Vector2 {
    const y = scene.length;
    let x = Number.MIN_VALUE;
    for (let row of scene) {
        x = Math.max(x, row.length);
    }
    return new Vector2(x, y);
}
```
A `Scene` is `Array<Array<number>>`; cells are embedded as rationals. -/
def sceneSize (scene : List (List ℚ)) : Vector2 :=
  let y : ℚ := scene.length
  let x : ℚ := scene.foldl (fun x row => max x (row.length : ℚ)) NumberMinValue
  ⟨x, y⟩

end Raycasting

namespace Raycasting

/-- `Vector2` over `ℝ`, for the one operation (`norm`, via `lenght`) whose
body genuinely computes a square root. -/
structure Vector2R where
  x : ℝ
  y : ℝ

namespace Vector2R

/-- `static zero(): Vector2 { return new Vector2(0, 0); }` -/
def zero : Vector2R := ⟨0, 0⟩

/-- `lenght() { return Math.sqrt(this.x * this.x + this.y * this.y); }` -/
noncomputable def lenght (v : Vector2R) : ℝ := Real.sqrt (v.x * v.x + v.y * v.y)

/-- ```
norm(): Vector2 {
    const l = this.lenght();
    if (l == 0) return new Vector2(0, 0);
    return new Vector2(this.x / l, this.y / l);
}
``` -/
noncomputable def norm (v : Vector2R) : Vector2R :=
  let l := v.lenght
  if l = 0 then ⟨0, 0⟩ else ⟨v.x / l, v.y / l⟩

end Vector2R

/-- C1: for every coordinate `x` and signed delta `dx`, `snap x dx` returns
`⌈x + eps⌉` when `dx > 0`, `⌊x - eps⌋` when `dx < 0`, and `x` unchanged when
`dx = 0`, where `eps` is the bias constant `1e-3`. -/
theorem snap_spec (x dx : ℚ) :
    (dx > 0 → snap x dx = (⌈x + EPS⌉ : ℤ)) ∧
    (dx < 0 → snap x dx = (⌊x - EPS⌋ : ℤ)) ∧
    (dx = 0 → snap x dx = x) := by
  refine ⟨fun h => ?_, fun h => ?_, fun h => ?_⟩
  · simp [snap, sign, h]
  · simp only [snap, sign, if_neg (not_lt.mpr h.le), if_pos h, neg_one_mul]
    rw [← sub_eq_add_neg]
  · simp [snap, h]

/-- Witness for C1 at `x = 1/2`, `dx = 1`. -/
theorem snap_spec_witness : snap (1/2) 1 = (⌈(1/2 : ℚ) + EPS⌉ : ℤ) :=
  (snap_spec (1/2) 1).1 (by norm_num)

/-- C2 counterexample: `rayStep (0,0) (2,1)` does NOT return `(1, 1/2)`;
the function snaps forward from the frontier `p2`, not from `p1`. -/
theorem rayStep_concrete_counterexample :
    rayStep ⟨0, 0⟩ ⟨2, 1⟩ ≠ ⟨1, 1/2⟩ := by
  have h1 : ⌈(1001 : ℚ)/1000⌉ = 2 := by norm_num [Int.ceil_eq_iff]
  have h2 : ⌈(2001 : ℚ)/1000⌉ = 3 := by norm_num [Int.ceil_eq_iff]
  simp only [rayStep, snap, sign, EPS, Vector2.sub, Vector2.distanceSqTo,
    Vector2.lenghtSq]
  norm_num [h1, h2]

/-- C2 amended: `rayStep (0,0) (2,1)` returns `(3, 3/2)` — the first
vertical grid-line crossing strictly beyond the frontier `p2 = (2,1)`. -/
theorem rayStep_concrete :
    rayStep ⟨0, 0⟩ ⟨2, 1⟩ = ⟨3, 3/2⟩ := by
  have h1 : ⌈(1001 : ℚ)/1000⌉ = 2 := by norm_num [Int.ceil_eq_iff]
  have h2 : ⌈(2001 : ℚ)/1000⌉ = 3 := by norm_num [Int.ceil_eq_iff]
  simp only [rayStep, snap, sign, EPS, Vector2.sub, Vector2.distanceSqTo,
    Vector2.lenghtSq]
  norm_num [h1, h2]

/-- C4: for every point `p2`, when `p1 = p2` (zero-length degenerate ray),
`rayStep p1 p2` returns `p2` unchanged. -/
theorem rayStep_self (p : Vector2) : rayStep p p = p := by
  simp [rayStep, Vector2.sub, snap]

/-- C5: `hittingCell p1 p2` returns on each axis independently
`⌊p2.axis + sign(d.axis) * eps⌋` with `d = p2 - p1`; in particular when
`d.axis = 0` the unbiased `⌊p2.axis⌋` is used on that axis. -/
theorem hittingCell_spec (p1 p2 : Vector2) :
    (hittingCell p1 p2).x = ((⌊p2.x + sign (p2.x - p1.x) * EPS⌋ : ℤ) : ℚ) ∧
    (hittingCell p1 p2).y = ((⌊p2.y + sign (p2.y - p1.y) * EPS⌋ : ℤ) : ℚ) ∧
    (p2.x - p1.x = 0 → (hittingCell p1 p2).x = ((⌊p2.x⌋ : ℤ) : ℚ)) ∧
    (p2.y - p1.y = 0 → (hittingCell p1 p2).y = ((⌊p2.y⌋ : ℤ) : ℚ)) := by
  refine ⟨rfl, rfl, fun h => ?_, fun h => ?_⟩
  · simp [hittingCell, Vector2.sub, h, sign]
  · simp [hittingCell, Vector2.sub, h, sign]

/-- Witness for C5 at `p1 = p2 = (3/2, 3/2)`: both deltas are 0, and both
cell coordinates are the unbiased floors. -/
theorem hittingCell_spec_witness :
    (hittingCell ⟨3/2, 3/2⟩ ⟨3/2, 3/2⟩).x = ((⌊(3/2 : ℚ)⌋ : ℤ) : ℚ) :=
  (hittingCell_spec ⟨3/2, 3/2⟩ ⟨3/2, 3/2⟩).2.2.1 (by norm_num)

/-- C8: the empty scene (zero rows) yields height 0 and width equal to the
sentinel `Number.MIN_VALUE` — which is not 0. -/
theorem sceneSize_empty :
    sceneSize [] = ⟨NumberMinValue, 0⟩ ∧ NumberMinValue ≠ 0 := by
  constructor
  · simp [sceneSize]
  · norm_num [NumberMinValue]

/-- C9: `norm()` applied to the zero-length vector returns the zero vector
(not NaN): `Vector2.zero().norm()` equals `Vector2.zero()`. -/
theorem norm_zero : Vector2R.zero.norm = Vector2R.zero := by
  simp [Vector2R.norm, Vector2R.lenght, Vector2R.zero]

end Raycasting

namespace Raycasting

/-- Division that fails (returns `none`) when the divisor is zero.  Routing
the source's two scalar divisions through this shows each one is guarded. -/
def checkedDiv (a b : ℚ) : Option ℚ := if b = 0 then none else some (a / b)

/-- `rayStep` with each division it performs (`k = d.y / d.x` and
`x3 = (y3 - c) / k`) routed through `checkedDiv`, failing if any divisor
is zero; otherwise line-for-line the body of `rayStep`. -/
def rayStepChecked (p1 p2 : Vector2) : Option Vector2 :=
  let d := p2.sub p1
  if d.x ≠ 0 then
    match checkedDiv d.y d.x with
    | none => none
    | some k =>
      let c := p1.y - k * p1.x
      let x3 := snap p2.x d.x
      let y3 := x3 * k + c
      let p3 : Vector2 := ⟨x3, y3⟩
      if k ≠ 0 then
        match checkedDiv (snap p2.y d.y - c) k with
        | none => none
        | some x3h =>
          let p3t : Vector2 := ⟨x3h, snap p2.y d.y⟩
          some (if p2.distanceSqTo p3t < p2.distanceSqTo p3 then p3t else p3)
      else some p3
  else
    some ⟨p2.x, snap p2.y d.y⟩

/-- C6: `rayStep` is total and performs no unguarded division: the variant
whose divisions fail on a zero divisor never fails, and always returns
exactly `rayStep p1 p2` (the slope `k = d.y / d.x` is computed only when
`d.x ≠ 0`, and `(y3 - c) / k` only when `k ≠ 0`). -/
theorem rayStep_total (p1 p2 : Vector2) :
    rayStepChecked p1 p2 = some (rayStep p1 p2) := by
  by_cases hx : (p2.sub p1).x = 0
  · simp [rayStepChecked, rayStep, hx]
  · by_cases hk : (p2.sub p1).y / (p2.sub p1).x = 0
    · simp [rayStepChecked, rayStep, checkedDiv, hx, hk]
    · simp [rayStepChecked, rayStep, checkedDiv, hx, hk]

/-- When the delta is nonzero, `snap` returns an integer (a ceil or floor). -/
theorem snap_isInt (x dx : ℚ) (h : dx ≠ 0) : ∃ n : ℤ, snap x dx = (n : ℚ) := by
  rcases lt_or_gt_of_ne h with hneg | hpos
  · exact ⟨⌊x + sign dx * EPS⌋, by simp [snap, hneg, hneg.not_lt]⟩
  · exact ⟨⌈x + sign dx * EPS⌉, by simp [snap, hpos]⟩

/-- C10: for every pair of points with `p1 ≠ p2`, the point returned by
`rayStep p1 p2` has at least one integer coordinate, i.e. it lies on a
vertical or horizontal grid line. -/
theorem rayStep_gridline (p1 p2 : Vector2) (h : p1 ≠ p2) :
    (∃ n : ℤ, (rayStep p1 p2).x = (n : ℚ)) ∨
    (∃ n : ℤ, (rayStep p1 p2).y = (n : ℚ)) := by
  by_cases hx : (p2.sub p1).x = 0
  · have hy : (p2.sub p1).y ≠ 0 := by
      intro hy
      apply h
      cases p1; cases p2
      simp only [Vector2.sub] at hx hy
      simp only [Vector2.mk.injEq]
      constructor <;> linarith
    simp only [rayStep, hx, ne_eq, not_true_eq_false, if_false]
    exact Or.inr (snap_isInt _ _ hy)
  · by_cases hk : (p2.sub p1).y / (p2.sub p1).x = 0
    · simp only [rayStep, hk, hx, ne_eq, not_false_eq_true, if_true,
        not_true_eq_false, if_false]
      exact Or.inl (snap_isInt _ _ hx)
    · have hy : (p2.sub p1).y ≠ 0 := fun hy => hk (by rw [hy, zero_div])
      simp only [rayStep, hk, hx, ne_eq, not_false_eq_true, if_true]
      split_ifs
      · exact Or.inr (snap_isInt _ _ hy)
      · exact Or.inl (snap_isInt _ _ hx)

/-- Witness for C10 at `p1 = (0,0)`, `p2 = (2,1)`. -/
theorem rayStep_gridline_witness :
    (∃ n : ℤ, (rayStep ⟨0, 0⟩ ⟨2, 1⟩).x = (n : ℚ)) ∨
    (∃ n : ℤ, (rayStep ⟨0, 0⟩ ⟨2, 1⟩).y = (n : ℚ)) :=
  rayStep_gridline ⟨0, 0⟩ ⟨2, 1⟩ (by simp)

end Raycasting

namespace Raycasting

/-- Helper: a `foldl max` result is at least its initial accumulator. -/
theorem le_foldl_max (l : List ℕ) (a : ℕ) : a ≤ l.foldl max a := by
  induction l generalizing a with
  | nil => simp
  | cons b l ih => exact le_trans (le_max_left a b) (ih (max a b))

/-- Helper: a `foldl max` result is at least any member of the list. -/
theorem mem_le_foldl_max (l : List ℕ) (b : ℕ) (hb : b ∈ l) (a : ℕ) :
    b ≤ l.foldl max a := by
  induction l generalizing a with
  | nil => cases hb
  | cons c l ih =>
    rcases List.mem_cons.mp hb with rfl | hb2
    · exact le_trans (le_max_right a b) (le_foldl_max l (max a b))
    · exact ih hb2 (max a c)

/-- Helper: `foldl max` with any initial accumulator, via the one with 0. -/
theorem foldl_max_nat (l : List ℕ) (a : ℕ) :
    l.foldl max a = max a (l.foldl max 0) := by
  induction l generalizing a with
  | nil => simp
  | cons b l ih =>
    simp only [List.foldl_cons]
    rw [ih (max a b), ih (max 0 b)]
    simp [max_assoc]

/-- Helper: the accumulation loop of `sceneSize`, started at any nonnegative
value, computes the max of that value and the largest row length. -/
theorem sceneFold_eq (scene : List (List ℚ)) (init : ℚ) (h : 0 ≤ init) :
    scene.foldl (fun x row => max x (row.length : ℚ)) init
      = max init (((scene.map List.length).foldl max 0 : ℕ) : ℚ) := by
  induction scene generalizing init with
  | nil => simp [max_eq_left h]
  | cons r l ih =>
    simp only [List.foldl_cons, List.map_cons]
    rw [ih (max init (r.length : ℚ)) (le_trans h (le_max_left _ _)),
      foldl_max_nat (l.map List.length) (max 0 r.length)]
    push_cast
    simp [max_assoc]

/-- C7 amended: for every scene with at least one NONEMPTY row,
`sceneSize` returns the maximum row length as width and the row count as
height.  (For a scene all of whose rows are empty the width is the
`Number.MIN_VALUE` sentinel, not 0 — see the counterexample.) -/
theorem sceneSize_spec (scene : List (List ℚ)) (h : ∃ r ∈ scene, r ≠ []) :
    sceneSize scene
      = ⟨(((scene.map List.length).foldl max 0 : ℕ) : ℚ), (scene.length : ℚ)⟩ := by
  obtain ⟨r, hr, hne⟩ := h
  have hM : 1 ≤ (scene.map List.length).foldl max 0 :=
    le_trans (List.length_pos.mpr hne)
      (mem_le_foldl_max _ _ (List.mem_map_of_mem List.length hr) 0)
  have hinit : (0 : ℚ) ≤ NumberMinValue := by norm_num [NumberMinValue]
  simp only [sceneSize]
  rw [sceneFold_eq _ _ hinit, max_eq_right]
  calc NumberMinValue ≤ 1 := by norm_num [NumberMinValue]
    _ ≤ _ := by exact_mod_cast hM

/-- Witness for C7 (amended) and the claim's concrete example:
`sceneSize [[0,0,1],[1,1]]` returns width 3 and height 2. -/
theorem sceneSize_spec_witness :
    sceneSize [[0, 0, 1], [1, 1]] = ⟨3, 2⟩ :=
  (sceneSize_spec [[0, 0, 1], [1, 1]] ⟨[0, 0, 1], by simp, by simp⟩).trans
    (by norm_num)

/-- C7 counterexample: for the one-row scene whose single row is empty the
maximum row length is 0, but `sceneSize` returns the `Number.MIN_VALUE`
sentinel as width, so the claim fails at `[[]]`. -/
theorem sceneSize_counterexample : sceneSize [[]] ≠ ⟨0, 1⟩ := by
  norm_num [sceneSize, NumberMinValue, Vector2.mk.injEq]

end Raycasting

namespace Raycasting

/-- Helper: with a positive delta, `snap` moves strictly forward. -/
theorem lt_snap (x dx : ℚ) (h : 0 < dx) : x < snap x dx := by
  have hs : sign dx = 1 := by simp [sign, h]
  simp only [snap, if_pos h, hs, one_mul]
  calc x < x + EPS := by norm_num [EPS]
    _ ≤ _ := Int.le_ceil _

/-- Helper: with a negative delta, `snap` moves strictly backward. -/
theorem snap_lt (x dx : ℚ) (h : dx < 0) : snap x dx < x := by
  have hs : sign dx = -1 := by simp [sign, h, h.not_lt]
  simp only [snap, if_neg (not_lt.mpr h.le), if_pos h, hs, neg_one_mul]
  calc ((⌊x + -EPS⌋ : ℤ) : ℚ) ≤ x + -EPS := Int.floor_le _
    _ < x := by norm_num [EPS]

set_option maxHeartbeats 1000000 in
/-- C3: for every pair of points with `p1 ≠ p2`, the point returned by
`rayStep p1 p2` is strictly farther from `p1` than `p2` is (stated on
squared distances; real distance compares the same way). -/
theorem rayStep_progress (p1 p2 : Vector2) (h : p1 ≠ p2) :
    p1.distanceSqTo p2 < p1.distanceSqTo (rayStep p1 p2) := by
  obtain ⟨x1, y1⟩ := p1
  obtain ⟨x2, y2⟩ := p2
  by_cases hx : x2 - x1 = 0
  · have hy : y2 - y1 ≠ 0 := by
      intro hy
      apply h
      simp only [Vector2.mk.injEq]
      constructor <;> linarith
    simp only [rayStep, Vector2.sub, Vector2.distanceSqTo, Vector2.lenghtSq,
      hx, ne_eq, not_true_eq_false, if_false]
    rcases lt_or_gt_of_ne hy with hneg | hpos
    · have hb := snap_lt y2 (y2 - y1) hneg
      nlinarith [hb]
    · have hb := lt_snap y2 (y2 - y1) hpos
      nlinarith [hb]
  · by_cases hk : (y2 - y1) / (x2 - x1) = 0
    · have hy : y2 - y1 = 0 := by
        rcases div_eq_zero_iff.mp hk with h0 | h0
        · exact h0
        · exact absurd h0 hx
      simp only [rayStep, Vector2.sub, Vector2.distanceSqTo, Vector2.lenghtSq,
        hx, ne_eq, not_false_eq_true, if_true, hk, not_true_eq_false, if_false,
        mul_zero, zero_mul, add_zero, sub_zero, zero_div, hy]
      rcases lt_or_gt_of_ne hx with hneg | hpos
      · have hb := snap_lt x2 (x2 - x1) hneg
        nlinarith [hb]
      · have hb := lt_snap x2 (x2 - x1) hpos
        nlinarith [hb]
    · have hy : y2 - y1 ≠ 0 := by
        intro h0
        exact hk (by rw [h0, zero_div])
      simp only [rayStep, Vector2.sub, Vector2.distanceSqTo, Vector2.lenghtSq,
        hx, ne_eq, not_false_eq_true, if_true, hk]
      split_ifs with hcmp
      · dsimp only
        clear hcmp
        obtain ⟨k, hkd⟩ : ∃ k, k = (y2 - y1) / (x2 - x1) := ⟨_, rfl⟩
        obtain ⟨t, htd⟩ : ∃ t, t = snap y2 (y2 - y1) := ⟨_, rfl⟩
        rw [← hkd] at hk ⊢
        rw [← htd]
        have hkk : 0 < k * k := mul_self_pos.mpr hk
        have e1 : (t - (y1 - k * x1)) / k - x1 = (t - y1) / k := by
          field_simp
          ring
        have e2 : x2 - x1 = (y2 - y1) / k := by
          rw [hkd]
          field_simp
        have hdy2 : (y2 - y1) * (y2 - y1) < (t - y1) * (t - y1) := by
          rcases lt_or_gt_of_ne hy with hneg | hpos
          · have hb := snap_lt y2 (y2 - y1) hneg
            rw [← htd] at hb
            nlinarith [hb]
          · have hb := lt_snap y2 (y2 - y1) hpos
            rw [← htd] at hb
            nlinarith [hb]
        rw [e1, e2, div_mul_div_comm, div_mul_div_comm]
        apply add_lt_add ?_ hdy2
        rw [div_lt_div_iff_of_pos_right hkk]
        exact hdy2
      · dsimp only
        clear hcmp
        obtain ⟨k, hkd⟩ : ∃ k, k = (y2 - y1) / (x2 - x1) := ⟨_, rfl⟩
        obtain ⟨s, hsd⟩ : ∃ s, s = snap x2 (x2 - x1) := ⟨_, rfl⟩
        rw [← hkd] at hk ⊢
        rw [← hsd]
        have e3 : s * k + (y1 - k * x1) - y1 = k * (s - x1) := by ring
        have e4 : y2 - y1 = k * (x2 - x1) := by
          rw [hkd]
          field_simp
        have hdx2 : (x2 - x1) * (x2 - x1) < (s - x1) * (s - x1) := by
          rcases lt_or_gt_of_ne hx with hneg | hpos
          · have hb := snap_lt x2 (x2 - x1) hneg
            rw [← hsd] at hb
            nlinarith [hb]
          · have hb := lt_snap x2 (x2 - x1) hpos
            rw [← hsd] at hb
            nlinarith [hb]
        rw [e3, e4]
        nlinarith [hdx2, mul_self_nonneg k,
          mul_le_mul_of_nonneg_left hdx2.le (mul_self_nonneg k)]


/-- Witness for C3 at `p1 = (0,0)`, `p2 = (2,1)`. -/
theorem rayStep_progress_witness :
    Vector2.distanceSqTo ⟨0, 0⟩ ⟨2, 1⟩
      < Vector2.distanceSqTo ⟨0, 0⟩ (rayStep ⟨0, 0⟩ ⟨2, 1⟩) :=
  rayStep_progress ⟨0, 0⟩ ⟨2, 1⟩ (by simp)

end Raycasting
